import Mathlib

/-!
Verification of the QSerialPlotter core against its specification.

Source files embedded here:
* `src/main.py` — `SerialManager.update` (COBS frame decoder) and
  `SerialManager.parse_packet` (checksum verification and float unpacking).
* `src/plotter_widget.py` — `PlotterWidget` (windowed series store:
  `start_plotting`, `stop_plotting`, `plot_values`).

Python machine integers are modelled as `Nat`/`Int` (Python ints are unbounded;
`cobs_code` can go negative, hence `Int`).  The seven 32-bit floats of a
telemetry sample are modelled by their 32-bit little-endian bit patterns
(`Nat < 2^32`): for finite floats, `struct.pack`/`struct.unpack` are mutually
inverse bijections between floats and 4-byte patterns, so byte-level identity
is exactly bit-identity of the floats.  Chart values and timestamps in the
plotter are modelled as `ℚ` (exact arithmetic standing in for wall-clock
float arithmetic; no plotter claim depends on rounding).
-/

namespace SerialManager

/-- State of the COBS decoder, from `SerialManager.State` in `src/main.py`:
`SCAN` = next byte is read literally, `ESC` = next byte is a COBS-escaped
character, `START` = next byte is the start of the packet.  The spec calls
these `Copying`, `PendingZero` and `AwaitingOverhead` respectively. -/
inductive DState where
  | SCAN : DState
  | ESC : DState
  | START : DState
deriving DecidableEq, Repr

/-- `SerialManager.Packet` from `src/main.py`: seven 32-bit floats, stored in
the order they appear in the packet.  Each float is represented by its 32-bit
little-endian bit pattern. -/
structure Packet where
  input : Nat
  setpoint : Nat
  error : Nat
  gain : Nat
  p_term : Nat
  i_term : Nat
  d_term : Nat
deriving DecidableEq, Repr

/-- The mutable decoder fields of `SerialManager`: `state`, `packet` (the
accumulated decoded frame bytes) and `cobs_code` (the COBS run countdown;
a Python int, so it may become negative). -/
structure DecoderState where
  state : DState
  packet : List Nat
  cobs_code : Int
deriving DecidableEq, Repr

/-- `SerialManager.PACKET_LENGTH` in `src/main.py`. -/
def PACKET_LENGTH : Nat := 28

/-- `SerialManager.PACKET_TERMINATOR` in `src/main.py`. -/
def PACKET_TERMINATOR : Nat := 0

/-- Modelled from the spec: one shift step of CRC-16/XMODEM.  The function
`crc16_xmodem` is imported in `src/main.py` from `util.py`, a file of this
repository that is not under `src/`; the spec (§3 glossary, §4.1) pins it as
the CRC with polynomial `0x1021`, initial value `0x0000`, and no input/output
reflection, which is computed by the classic shift loop modelled here. -/
def crc16_step (crc : Nat) : Nat :=
  if crc &&& 0x8000 ≠ 0 then ((crc <<< 1) ^^^ 0x1021) % 65536
  else (crc <<< 1) % 65536

/-- Modelled from the spec: absorb one input byte into the CRC state
(`crc ^= byte << 8` followed by eight shift steps). -/
def crc16_update (crc b : Nat) : Nat := crc16_step^[8] (crc ^^^ (b <<< 8))

/-- Modelled from the spec: CRC-16/XMODEM of a byte string, initial value 0. -/
def crc16_xmodem (data : List Nat) : Nat := data.foldl crc16_update 0

/-- Little-endian 16-bit value of the final two checksum bytes
(`struct.unpack("<H", packet[-2:])` in `parse_packet`). -/
def unpackU16LE (l : List Nat) : Nat := l.getD 0 0 + 256 * l.getD 1 0

/-- Little-endian 32-bit word starting at the head of `l`
(one float of `struct.unpack("<7f", ...)`, as a bit pattern). -/
def leWord (l : List Nat) : Nat :=
  l.getD 0 0 + 256 * l.getD 1 0 + 65536 * l.getD 2 0 + 16777216 * l.getD 3 0

/-- `struct.unpack("<7f", packet_payload)` in `parse_packet`: seven consecutive
little-endian 32-bit words of the 28-byte payload, in field order. -/
def unpack7f (l : List Nat) : Packet where
  input := leWord l
  setpoint := leWord (l.drop 4)
  error := leWord (l.drop 8)
  gain := leWord (l.drop 12)
  p_term := leWord (l.drop 16)
  i_term := leWord (l.drop 20)
  d_term := leWord (l.drop 24)

/-- `SerialManager.parse_packet` from `src/main.py`: require exactly
`PACKET_LENGTH + 2` bytes, split off the trailing 2-byte little-endian
checksum, compare it against CRC-16/XMODEM of the payload, and on success
unpack the payload as seven little-endian floats. -/
def parse_packet (packet : List Nat) : Option Packet :=
  if packet.length ≠ PACKET_LENGTH + 2 then
    none
  else
    let packet_payload := packet.take (packet.length - 2)
    let packet_checksum := unpackU16LE (packet.drop (packet.length - 2))
    let real_checksum := crc16_xmodem packet_payload
    if packet_checksum ≠ real_checksum then
      none
    else
      some (unpack7f packet_payload)

/-- `SerialManager.update` from `src/main.py`, the byte-at-a-time decoder.
The `match` arms mirror the Python `match (self.state, c)` in order; after the
match, the unconditional `if self.cobs_code == 1: self.state = ESC` and
`self.cobs_code -= 1` run — note that they run even when a match arm has just
reset the state, exactly as in the source. -/
def update (s : DecoderState) (c : Nat) : DecoderState × Option Packet :=
  let step : DecoderState × Option Packet :=
    match s.state, c with
    | DState.START, _ =>
        (DecoderState.mk DState.SCAN s.packet (c : Int), none)
    | DState.SCAN, 0 =>
        (DecoderState.mk DState.START [] s.cobs_code, none)
    | DState.ESC, 0 =>
        (DecoderState.mk DState.START [] s.cobs_code, parse_packet s.packet)
    | DState.SCAN, _ =>
        (DecoderState.mk DState.SCAN (s.packet ++ [c]) s.cobs_code, none)
    | DState.ESC, _ =>
        (DecoderState.mk DState.SCAN (s.packet ++ [PACKET_TERMINATOR]) (c : Int), none)
  let s2 := if step.1.cobs_code = 1 then DecoderState.mk DState.ESC step.1.packet step.1.cobs_code
            else step.1
  (DecoderState.mk s2.state s2.packet (s2.cobs_code - 1), step.2)

/-- Decoder state established by `SerialManager.open`: empty `packet`,
state `START` (`cobs_code` is left uninitialised there and is overwritten
before first use by the `START` arm of `update`; we pick 0). -/
def freshDecoder : DecoderState := DecoderState.mk DState.START [] 0

/-- Feed a byte string one byte at a time, collecting the return value of
`update` for every byte (the loop body of `SerialManager.worker`). -/
def feedAll (s : DecoderState) (bs : List Nat) : DecoderState × List (Option Packet) :=
  match bs with
  | [] => (s, [])
  | b :: rest =>
    let r := update s b
    let r2 := feedAll r.1 rest
    (r2.1, r.2 :: r2.2)

/-! ### Case equations for `update` -/

theorem update_start (pkt : List Nat) (cc : Int) (c : Nat) :
    update (DecoderState.mk DState.START pkt cc) c =
      (if (c : Int) = 1 then DecoderState.mk DState.ESC pkt 0
       else DecoderState.mk DState.SCAN pkt ((c : Int) - 1), none) := by
  simp only [update]
  split <;> simp_all

theorem update_scan_zero (pkt : List Nat) (cc : Int) :
    update (DecoderState.mk DState.SCAN pkt cc) 0 =
      (if cc = 1 then DecoderState.mk DState.ESC [] 0
       else DecoderState.mk DState.START [] (cc - 1), none) := by
  simp only [update]
  split <;> simp_all

theorem update_esc_zero (pkt : List Nat) (cc : Int) (h : cc ≠ 1) :
    update (DecoderState.mk DState.ESC pkt cc) 0 =
      (DecoderState.mk DState.START [] (cc - 1), parse_packet pkt) := by
  simp only [update]
  split <;> simp_all

theorem update_scan_pos (pkt : List Nat) (cc : Int) (c : Nat) (h : c ≠ 0) :
    update (DecoderState.mk DState.SCAN pkt cc) c =
      (if cc = 1 then DecoderState.mk DState.ESC (pkt ++ [c]) 0
       else DecoderState.mk DState.SCAN (pkt ++ [c]) (cc - 1), none) := by
  obtain ⟨d, rfl⟩ : ∃ d, c = d + 1 := ⟨c - 1, by omega⟩
  simp only [update]
  split <;> simp_all

theorem update_esc_pos (pkt : List Nat) (cc : Int) (c : Nat) (h : c ≠ 0) :
    update (DecoderState.mk DState.ESC pkt cc) c =
      (if (c : Int) = 1 then DecoderState.mk DState.ESC (pkt ++ [0]) 0
       else DecoderState.mk DState.SCAN (pkt ++ [0]) ((c : Int) - 1), none) := by
  obtain ⟨d, rfl⟩ : ∃ d, c = d + 1 := ⟨c - 1, by omega⟩
  simp only [update, PACKET_TERMINATOR]
  split <;> simp_all

/-- Length of `dropWhile` never exceeds the length of the input list. -/
theorem length_dropWhile_le {α : Type} (p : α → Bool) (l : List α) :
    (l.dropWhile p).length ≤ l.length := by
  induction l with
  | nil => simp [List.dropWhile]
  | cons a l ih =>
    by_cases h : p a
    · simp [List.dropWhile, h]
      omega
    · simp [List.dropWhile, h]

/-- The first element surviving `dropWhile` fails the predicate. -/
theorem dropWhile_head_false {α : Type} (p : α → Bool) (l : List α) (x : α) (xs : List α)
    (h : l.dropWhile p = x :: xs) : p x = false := by
  induction l with
  | nil => simp [List.dropWhile] at h
  | cons a l ih =>
    by_cases ha : p a
    · exact ih (by simpa [List.dropWhile, ha] using h)
    · simp only [List.dropWhile, ha] at h
      cases h
      simpa using ha

/-- Modelled from the spec: COBS encoding of the payload-plus-checksum block.
The encoder lives on the transmitting device and is not part of this
repository; the spec (§4.1, §6) fixes it as standard COBS — each run of
non-zero bytes between zeros is emitted as a length-prefix code byte
(`run length + 1`) followed by the run, and a zero in the source is
represented by the boundary between two runs.  (For blocks shorter than 254
bytes — payload+checksum is 30 bytes — no code-255 continuation ever arises,
so this recursion is exactly standard COBS.)  A leading zero byte extends the
current run's code; the `[]` arm of the inner match is unreachable because an
encoding is never empty. -/
def cobsEncode : List Nat → List Nat
  | [] => [1]
  | 0 :: rest => 1 :: cobsEncode rest
  | (b + 1) :: rest =>
    match cobsEncode rest with
    | [] => []
    | code :: tail => (code + 1) :: (b + 1) :: tail

/-- Modelled from the spec: little-endian byte serialisation of a 32-bit
word (`struct.pack("<f", x)` at bit-pattern level). -/
def packU32LE (w : Nat) : List Nat :=
  [w % 256, w / 256 % 256, w / 65536 % 256, w / 16777216 % 256]

/-- Modelled from the spec: little-endian byte serialisation of a 16-bit
word (`struct.pack("<H", x)`). -/
def packU16LE (w : Nat) : List Nat := [w % 256, w / 256 % 256]

/-- Modelled from the spec: the 28-byte packet payload — seven little-endian
32-bit floats in the fixed field order. -/
def payloadBytes (s : Packet) : List Nat :=
  packU32LE s.input ++ packU32LE s.setpoint ++ packU32LE s.error ++ packU32LE s.gain ++
    packU32LE s.p_term ++ packU32LE s.i_term ++ packU32LE s.d_term

/-- Modelled from the spec: the complete wire frame for a 28-byte payload —
append the CRC-16/XMODEM little-endian, COBS-encode, append the `0x00`
terminator. -/
def wireFrame28 (p28 : List Nat) : List Nat :=
  cobsEncode (p28 ++ packU16LE (crc16_xmodem p28)) ++ [PACKET_TERMINATOR]

/-- Modelled from the spec: the complete wire frame of a telemetry sample. -/
def wireFrame (s : Packet) : List Nat := wireFrame28 (payloadBytes s)

theorem feedAll_append (s : DecoderState) (xs ys : List Nat) :
    feedAll s (xs ++ ys) =
      ((feedAll (feedAll s xs).1 ys).1,
        (feedAll s xs).2 ++ (feedAll (feedAll s xs).1 ys).2) := by
  induction xs generalizing s with
  | nil => simp [feedAll]
  | cons b rest ih => simp [feedAll, ih]

/-! ### Decoding an encoded stream -/

/-- Feeding a non-empty run of non-zero bytes in `SCAN` state with the run
counter equal to the run length appends the run to the buffer and ends in
`ESC` (pending-zero) state with counter 0, emitting no packet. -/
theorem feed_scan_run : ∀ (g : List Nat) (buf : List Nat), (∀ b ∈ g, b ≠ 0) → g ≠ [] →
    feedAll (DecoderState.mk DState.SCAN buf (g.length : Int)) g =
      (DecoderState.mk DState.ESC (buf ++ g) 0, List.replicate g.length none) := by
  intro g
  induction g with
  | nil => intro buf _ hne; cases hne rfl
  | cons d g ih =>
    intro buf hg _
    have hd : d ≠ 0 := hg d (List.mem_cons_self d g)
    rcases eq_or_ne g [] with rfl | hgne
    · simp [feedAll, update_scan_pos _ _ _ hd]
    · have hlpos : 0 < g.length := List.length_pos.mpr hgne
      have h1 : ((d :: g).length : Int) ≠ 1 := by
        simp only [List.length_cons]; push_cast; omega
      have h2 : ((d :: g).length : Int) - 1 = (g.length : Int) := by
        simp only [List.length_cons]; push_cast; ring
      simp only [feedAll, update_scan_pos _ _ _ hd, if_neg h1, h2]
      rw [ih (buf ++ [d]) (fun b hb => hg b (List.mem_cons_of_mem d hb)) hgne]
      simp [List.replicate_succ]

/-- Feeding one COBS block (length-prefix code byte followed by its run of
non-zero bytes) from `START` state appends the run to the buffer and ends in
`ESC` state with counter 0. -/
theorem feed_block_start (g buf : List Nat) (cc : Int) (hg : ∀ b ∈ g, b ≠ 0) :
    feedAll (DecoderState.mk DState.START buf cc) ((g.length + 1) :: g) =
      (DecoderState.mk DState.ESC (buf ++ g) 0, List.replicate (g.length + 1) none) := by
  rcases eq_or_ne g [] with rfl | hgne
  · simp [feedAll, update_start]
  · have hlpos : 0 < g.length := List.length_pos.mpr hgne
    have h1 : ((g.length + 1 : Nat) : Int) ≠ 1 := by push_cast; omega
    have h2 : ((g.length + 1 : Nat) : Int) - 1 = (g.length : Int) := by push_cast; ring
    simp only [feedAll, update_start, if_neg h1, h2]
    rw [feed_scan_run g buf hg hgne]
    simp [List.replicate_succ]

/-- Feeding one COBS block from `ESC` (pending-zero) state with counter 0
first appends the implied zero, then the run, ending in `ESC` with counter 0. -/
theorem feed_block_esc (g buf : List Nat) (hg : ∀ b ∈ g, b ≠ 0) :
    feedAll (DecoderState.mk DState.ESC buf 0) ((g.length + 1) :: g) =
      (DecoderState.mk DState.ESC (buf ++ 0 :: g) 0, List.replicate (g.length + 1) none) := by
  rcases eq_or_ne g [] with rfl | hgne
  · simp only [List.length_nil, Nat.zero_add]
    simp [feedAll, update_esc_pos buf 0 1 (by norm_num)]
  · have hc : (g.length + 1 : Nat) ≠ 0 := by omega
    have hlpos : 0 < g.length := List.length_pos.mpr hgne
    have h1 : ((g.length + 1 : Nat) : Int) ≠ 1 := by push_cast; omega
    have h2 : ((g.length + 1 : Nat) : Int) - 1 = (g.length : Int) := by push_cast; ring
    simp only [feedAll, update_esc_pos _ _ _ hc, if_neg h1, h2]
    rw [feed_scan_run g (buf ++ [0]) hg hgne]
    simp [List.replicate_succ]

/-- Unfolding of `cobsEncode` when the input has no zero byte. -/
theorem cobsEncode_of_dropWhile_nil : ∀ (p : List Nat),
    p.dropWhile (fun b => b != 0) = [] →
    cobsEncode p =
      ((p.takeWhile (fun b => b != 0)).length + 1) :: p.takeWhile (fun b => b != 0) := by
  intro p
  induction p with
  | nil => intro _; rfl
  | cons b rest ih =>
    intro hr
    cases b with
    | zero => simp [List.dropWhile] at hr
    | succ d =>
      have hb : ((d + 1 : Nat) != 0) = true := by simp
      simp only [List.dropWhile, hb] at hr
      simp only [List.takeWhile, hb]
      rw [cobsEncode, ih hr]
      simp

/-- Unfolding of `cobsEncode` at the first zero byte of the input. -/
theorem cobsEncode_of_dropWhile_cons : ∀ (p : List Nat) (y : Nat) (ys : List Nat),
    p.dropWhile (fun b => b != 0) = y :: ys →
    cobsEncode p =
      (((p.takeWhile (fun b => b != 0)).length + 1) :: p.takeWhile (fun b => b != 0))
        ++ cobsEncode ys := by
  intro p
  induction p with
  | nil => intro y ys h; simp [List.dropWhile] at h
  | cons b rest ih =>
    intro y ys hr
    cases b with
    | zero =>
      simp only [List.dropWhile, show ((0 : Nat) != 0) = false from rfl] at hr
      cases hr
      simp [List.takeWhile, cobsEncode]
    | succ d =>
      have hb : ((d + 1 : Nat) != 0) = true := by simp
      simp only [List.dropWhile, hb] at hr
      simp only [List.takeWhile, hb]
      rw [cobsEncode, ih y ys hr]
      simp

/-- Core decode/encode lemma: feeding the COBS encoding of an arbitrary byte
block `p` from `START` state appends exactly `p` to the buffer; feeding it
from `ESC` state with counter 0 appends the implied zero and then `p`.  In
both cases the decoder ends in `ESC` state with counter 0 and emits no packet
on any byte. -/
theorem feed_cobsEncode : ∀ (n : Nat) (p : List Nat), p.length ≤ n → ∀ (buf : List Nat) (cc : Int),
    (feedAll (DecoderState.mk DState.START buf cc) (cobsEncode p) =
      (DecoderState.mk DState.ESC (buf ++ p) 0, List.replicate (cobsEncode p).length none)) ∧
    (feedAll (DecoderState.mk DState.ESC buf 0) (cobsEncode p) =
      (DecoderState.mk DState.ESC (buf ++ 0 :: p) 0, List.replicate (cobsEncode p).length none)) := by
  intro n
  induction n with
  | zero =>
    intro p hp buf cc
    have hp0 : p = [] := List.length_eq_zero.mp (Nat.le_zero.mp hp)
    subst hp0
    have he : cobsEncode [] = [1] := rfl
    rw [he]
    constructor
    · simpa using feed_block_start [] buf cc (by simp)
    · simpa using feed_block_esc [] buf (by simp)
  | succ n ih =>
    intro p hp buf cc
    have hg : ∀ b ∈ p.takeWhile (fun b => b != 0), b ≠ 0 := by
      intro b hb
      have := List.mem_takeWhile_imp hb
      simpa using this
    have hsplit : p.takeWhile (fun b => b != 0) ++ p.dropWhile (fun b => b != 0) = p :=
      List.takeWhile_append_dropWhile _ _
    cases hr : p.dropWhile (fun b => b != 0) with
    | nil =>
      rw [hr] at hsplit
      simp only [List.append_nil] at hsplit
      rw [cobsEncode_of_dropWhile_nil p hr]
      constructor
      · rw [feed_block_start _ buf cc hg, hsplit]
        simp
      · rw [feed_block_esc _ buf hg, hsplit]
        simp
    | cons y ys =>
      have hy : y = 0 := by
        have := dropWhile_head_false (fun b => b != 0) p y ys hr
        simpa using this
      subst hy
      rw [hr] at hsplit
      have hys : ys.length ≤ n := by
        have h1 : (p.dropWhile (fun b => b != 0)).length ≤ p.length := length_dropWhile_le _ _
        rw [hr] at h1
        simp only [List.length_cons] at h1
        omega
      rw [cobsEncode_of_dropWhile_cons p 0 ys hr]
      constructor
      · rw [feedAll_append, feed_block_start _ buf cc hg]
        rw [(ih ys hys (buf ++ p.takeWhile (fun b => b != 0)) 0).2]
        simp only [Prod.mk.injEq]
        refine ⟨by rw [List.append_assoc, hsplit], ?_⟩
        rw [← List.replicate_add]
        congr 1
        simp only [List.cons_append, List.length_cons, List.length_append]
        omega
      · rw [feedAll_append, feed_block_esc _ buf hg]
        rw [(ih ys hys (buf ++ 0 :: p.takeWhile (fun b => b != 0)) 0).2]
        simp only [Prod.mk.injEq]
        constructor
        · have h3 : (buf ++ 0 :: p.takeWhile (fun b => b != 0)) ++ 0 :: ys
              = buf ++ 0 :: (p.takeWhile (fun b => b != 0) ++ 0 :: ys) := by
            simp [List.append_assoc]
          rw [h3, hsplit]
        · rw [← List.replicate_add]
          congr 1
          simp only [List.cons_append, List.length_cons, List.length_append]
          omega

/-! ### CRC-16/XMODEM: bounds and injectivity in the state/byte arguments -/

theorem crc16_step_lt (c : Nat) : crc16_step c < 65536 := by
  unfold crc16_step
  split <;> exact Nat.mod_lt _ (by norm_num)

theorem crc16_update_lt (c b : Nat) : crc16_update c b < 65536 := by
  unfold crc16_update
  rw [show (8 : Nat) = 7 + 1 from rfl, Function.iterate_succ_apply']
  exact crc16_step_lt _

theorem crc16_foldl_lt (l : List Nat) (init : Nat) (h : init < 65536) :
    l.foldl crc16_update init < 65536 := by
  induction l generalizing init with
  | nil => exact h
  | cons b rest ih => exact ih _ (crc16_update_lt _ _)

theorem crc16_xmodem_lt (l : List Nat) : crc16_xmodem l < 65536 :=
  crc16_foldl_lt l 0 (by norm_num)

/-- `%` by a power of two distributes over `^^^`. -/
theorem xor_mod_two_pow (x y n : Nat) : (x ^^^ y) % 2 ^ n = x % 2 ^ n ^^^ y % 2 ^ n := by
  apply Nat.eq_of_testBit_eq
  intro i
  simp only [Nat.testBit_mod_two_pow, Nat.testBit_xor]
  by_cases h : i < n <;> simp [h]

theorem xor_mod_65536 (x y : Nat) : (x ^^^ y) % 65536 = x % 65536 ^^^ y % 65536 := by
  have h := xor_mod_two_pow x y 16
  norm_num at h
  exact h

theorem xor_mod_2 (x y : Nat) : (x ^^^ y) % 2 = x % 2 ^^^ y % 2 := by
  have h := xor_mod_two_pow x y 1
  rw [pow_one] at h
  exact h

/-- For a 16-bit value, testing the `0x8000` mask is testing `32768 ≤ c`. -/
theorem and_high_bit (c : Nat) (hc : c < 65536) : (c &&& 32768 ≠ 0) ↔ 32768 ≤ c := by
  have h := Nat.and_two_pow c 15
  have ht : c.testBit 15 = decide (c / 32768 % 2 = 1) := by
    have h2 := Nat.testBit_to_div_mod (i := 15) (x := c)
    norm_num at h2 ⊢
    exact h2
  norm_num at h
  rw [h, ht]
  rcases Nat.lt_or_ge c 32768 with h1 | h1
  · have hd : c / 32768 = 0 := Nat.div_eq_of_lt h1
    simp [hd]
    omega
  · have hd : c / 32768 = 1 := by omega
    simp [hd]
    omega

/-- The CRC shift step is injective on 16-bit states. -/
theorem crc16_step_inj (a b : Nat) (ha : a < 65536) (hb : b < 65536)
    (h : crc16_step a = crc16_step b) : a = b := by
  unfold crc16_step at h
  simp only [Nat.shiftLeft_eq, pow_one] at h
  by_cases h1 : 32768 ≤ a <;> by_cases h2 : 32768 ≤ b
  · rw [if_pos ((and_high_bit a ha).mpr h1), if_pos ((and_high_bit b hb).mpr h2)] at h
    rw [xor_mod_65536, xor_mod_65536] at h
    have h3 := congrArg (· ^^^ 4129 % 65536) h
    simp only [Nat.xor_cancel_right] at h3
    omega
  · rw [if_pos ((and_high_bit a ha).mpr h1),
        if_neg (fun hx => h2 ((and_high_bit b hb).mp hx))] at h
    have hp : (a * 2 ^^^ 4129) % 2 = 1 := by
      rw [xor_mod_2, Nat.mul_mod_left]
      decide
    have hcongr := congrArg (· % 2) h
    simp only at hcongr
    omega
  · rw [if_neg (fun hx => h1 ((and_high_bit a ha).mp hx)),
        if_pos ((and_high_bit b hb).mpr h2)] at h
    have hp : (b * 2 ^^^ 4129) % 2 = 1 := by
      rw [xor_mod_2, Nat.mul_mod_left]
      decide
    have hcongr := congrArg (· % 2) h
    simp only at hcongr
    omega
  · rw [if_neg (fun hx => h1 ((and_high_bit a ha).mp hx)),
        if_neg (fun hx => h2 ((and_high_bit b hb).mp hx))] at h
    omega

theorem crc16_step_iterate_inj (n : Nat) : ∀ (a b : Nat), a < 65536 → b < 65536 →
    crc16_step^[n] a = crc16_step^[n] b → a = b := by
  induction n with
  | zero => intro a b _ _ h; simpa using h
  | succ n ih =>
    intro a b ha hb h
    rw [Function.iterate_succ_apply, Function.iterate_succ_apply] at h
    exact crc16_step_inj a b ha hb (ih _ _ (crc16_step_lt a) (crc16_step_lt b) h)

/-- Flipping any bit of a byte changes the byte. -/
theorem xor_two_pow_ne (b j : Nat) : b ^^^ 2 ^ j ≠ b := by
  intro h
  have h2 : (b ^^^ 2 ^ j) ^^^ b = b ^^^ b := congrArg (· ^^^ b) h
  rw [Nat.xor_comm b (2 ^ j), Nat.xor_cancel_right, Nat.xor_self] at h2
  exact (Nat.two_pow_pos j).ne' h2

theorem crc16_update_inj_state (c1 c2 b : Nat) (h1 : c1 < 65536) (h2 : c2 < 65536)
    (hb : b < 256) (h : crc16_update c1 b = crc16_update c2 b) : c1 = c2 := by
  unfold crc16_update at h
  have hb8 : b <<< 8 < 65536 := by rw [Nat.shiftLeft_eq]; omega
  have e1 : c1 ^^^ b <<< 8 < 65536 := Nat.xor_lt_two_pow (n := 16) (by norm_num at h1 ⊢; omega) (by norm_num at hb8 ⊢; omega)
  have e2 : c2 ^^^ b <<< 8 < 65536 := Nat.xor_lt_two_pow (n := 16) (by norm_num at h2 ⊢; omega) (by norm_num at hb8 ⊢; omega)
  have h3 := crc16_step_iterate_inj 8 _ _ e1 e2 h
  have h4 := congrArg (· ^^^ b <<< 8) h3
  simpa only [Nat.xor_cancel_right] using h4

theorem crc16_update_inj_byte (c b1 b2 : Nat) (hc : c < 65536) (hb1 : b1 < 256)
    (hb2 : b2 < 256) (h : crc16_update c b1 = crc16_update c b2) : b1 = b2 := by
  unfold crc16_update at h
  have hs1 : b1 <<< 8 < 65536 := by rw [Nat.shiftLeft_eq]; omega
  have hs2 : b2 <<< 8 < 65536 := by rw [Nat.shiftLeft_eq]; omega
  have hc16 : c < 2 ^ 16 := by norm_num; omega
  have e1 : c ^^^ b1 <<< 8 < 65536 := Nat.xor_lt_two_pow (n := 16) hc16 (by norm_num at hs1 ⊢; omega)
  have e2 : c ^^^ b2 <<< 8 < 65536 := Nat.xor_lt_two_pow (n := 16) hc16 (by norm_num at hs2 ⊢; omega)
  have h3 := crc16_step_iterate_inj 8 _ _ e1 e2 h
  have h4 : b1 <<< 8 = b2 <<< 8 := by
    have h5 := congrArg (c ^^^ ·) h3
    simpa only [← Nat.xor_assoc, Nat.xor_self, Nat.zero_xor] using h5
  rw [Nat.shiftLeft_eq, Nat.shiftLeft_eq] at h4
  omega

theorem crc16_foldl_inj (l : List Nat) : ∀ (c1 c2 : Nat), (∀ b ∈ l, b < 256) →
    c1 < 65536 → c2 < 65536 → c1 ≠ c2 →
    l.foldl crc16_update c1 ≠ l.foldl crc16_update c2 := by
  induction l with
  | nil => intro c1 c2 _ _ _ hne; simpa using hne
  | cons b rest ih =>
    intro c1 c2 hb h1 h2 hne
    simp only [List.foldl_cons]
    exact ih _ _ (fun x hx => hb x (List.mem_cons_of_mem b hx))
      (crc16_update_lt _ _) (crc16_update_lt _ _)
      (fun hu => hne (crc16_update_inj_state c1 c2 b h1 h2 (hb b (List.mem_cons_self b rest)) hu))

/-- Changing one byte of the input changes the CRC-16/XMODEM (all bytes of
the suffix below 256). -/
theorem crc16_xmodem_ne_of_byte_ne (pre suf : List Nat) (b b' : Nat)
    (hb : b < 256) (hb' : b' < 256) (hsuf : ∀ x ∈ suf, x < 256) (hne : b ≠ b') :
    crc16_xmodem (pre ++ b :: suf) ≠ crc16_xmodem (pre ++ b' :: suf) := by
  unfold crc16_xmodem
  rw [List.foldl_append, List.foldl_append, List.foldl_cons, List.foldl_cons]
  have hs : pre.foldl crc16_update 0 < 65536 := crc16_foldl_lt _ _ (by norm_num)
  exact crc16_foldl_inj suf _ _ hsuf (crc16_update_lt _ _) (crc16_update_lt _ _)
    (fun hu => hne (crc16_update_inj_byte _ b b' hs hb hb' hu))

/-- Feeding the frame terminator in `ESC` state with counter 0 hands the
accumulated buffer to `parse_packet` and resets to `START` with an empty
buffer. -/
theorem update_terminator (buf : List Nat) :
    update (DecoderState.mk DState.ESC buf 0) 0 =
      (DecoderState.mk DState.START [] (-1), parse_packet buf) := by
  rw [update_esc_zero buf 0 (by decide)]
  norm_num

/-- Feeding a full wire frame (COBS encoding of a block followed by the
terminator) to a fresh decoder returns `None` on every byte except the
terminator, on which it returns `parse_packet` of the block; the decoder ends
reset with an empty buffer. -/
theorem feed_encoded_block (p : List Nat) :
    feedAll freshDecoder (cobsEncode p ++ [PACKET_TERMINATOR]) =
      (DecoderState.mk DState.START [] (-1),
        List.replicate (cobsEncode p).length none ++ [parse_packet p]) := by
  simp only [freshDecoder]
  rw [feedAll_append]
  rw [(feed_cobsEncode p.length p le_rfl [] 0).1]
  simp [feedAll, PACKET_TERMINATOR, update_terminator]

/-! ### `parse_packet` on well-formed and corrupted blocks -/

theorem unpackU16LE_packU16LE (c : Nat) (h : c < 65536) :
    unpackU16LE (packU16LE c) = c := by
  simp [unpackU16LE, packU16LE]
  omega

/-- `parse_packet` accepts a 28-byte payload followed by its own checksum. -/
theorem parse_packet_valid (p : List Nat) (hp : p.length = 28) :
    parse_packet (p ++ packU16LE (crc16_xmodem p)) = some (unpack7f p) := by
  have hlen : (p ++ packU16LE (crc16_xmodem p)).length = 30 := by
    simp [packU16LE, hp]
  rw [parse_packet, if_neg (by rw [hlen]; norm_num [PACKET_LENGTH])]
  have h28 : (p ++ packU16LE (crc16_xmodem p)).length - 2 = p.length := by
    rw [hlen, hp]
  simp only [h28, List.take_left, List.drop_left]
  rw [unpackU16LE_packU16LE _ (crc16_xmodem_lt p)]
  simp

/-- `parse_packet` rejects a 30-byte block whose trailing two bytes disagree
with the CRC of its leading 28 bytes. -/
theorem parse_packet_badsum (q : List Nat) (hq : q.length = 30)
    (hbad : unpackU16LE (q.drop 28) ≠ crc16_xmodem (q.take 28)) :
    parse_packet q = none := by
  rw [parse_packet, if_neg (by rw [hq]; norm_num [PACKET_LENGTH])]
  have h28 : q.length - 2 = 28 := by omega
  simp only [h28]
  rw [if_pos hbad]

/-- Decomposition of a list at index `i`. -/
theorem take_getD_cons_drop {α : Type} (d : α) :
    ∀ (l : List α) (i : Nat), i < l.length →
      l.take i ++ l.getD i d :: l.drop (i + 1) = l := by
  intro l
  induction l with
  | nil => intro i h; simp at h
  | cons a l ih =>
    intro i h
    cases i with
    | zero => simp [List.getD]
    | succ n =>
      simp only [List.take_succ_cons, List.getD_cons_succ, List.drop_succ_cons,
        List.cons_append, List.cons.injEq, true_and]
      exact ih n (by simpa using h)

/-! ### Little-endian 32-bit pack/unpack round trip -/

theorem payloadBytes_length (s : Packet) : (payloadBytes s).length = 28 := by
  simp [payloadBytes, packU32LE]

theorem packU32LE_lt (w : Nat) : ∀ b ∈ packU32LE w, b < 256 := by
  intro b hb
  simp only [packU32LE, List.mem_cons, List.not_mem_nil, or_false] at hb
  rcases hb with rfl | rfl | rfl | rfl <;> exact Nat.mod_lt _ (by norm_num)

theorem payloadBytes_lt (s : Packet) : ∀ b ∈ payloadBytes s, b < 256 := by
  intro b hb
  simp only [payloadBytes, List.mem_append] at hb
  rcases hb with ((((((h | h) | h) | h) | h) | h) | h) <;> exact packU32LE_lt _ _ h

/-- Unpacking the packed seven-float payload restores the sample, provided
every field fits in 32 bits. -/
theorem unpack7f_payloadBytes (s : Packet)
    (h1 : s.input < 4294967296) (h2 : s.setpoint < 4294967296)
    (h3 : s.error < 4294967296) (h4 : s.gain < 4294967296)
    (h5 : s.p_term < 4294967296) (h6 : s.i_term < 4294967296)
    (h7 : s.d_term < 4294967296) :
    unpack7f (payloadBytes s) = s := by
  cases s with
  | mk a b c d e f g =>
    simp only at h1 h2 h3 h4 h5 h6 h7
    simp only [payloadBytes, packU32LE, List.cons_append, List.nil_append]
    simp only [unpack7f, leWord, List.getD_cons_zero, List.getD_cons_succ,
      List.drop_succ_cons, List.drop_zero]
    simp only [Packet.mk.injEq]
    refine ⟨?_, ?_, ?_, ?_, ?_, ?_, ?_⟩ <;> omega

/-- Flip bit `j` of byte `i` of a byte string (used to state single-bit
corruption of the pre-encoding payload+checksum block). -/
def flipAt (l : List Nat) (i j : Nat) : List Nat := l.set i (l.getD i 0 ^^^ 2 ^ j)

/-! ### Claim theorems for the decoder -/

/-- C1: for every TelemetrySample (seven finite 32-bit floats, modelled by
their 32-bit patterns), building the wire frame (28-byte little-endian float
payload, append CRC-16/XMODEM little-endian, COBS-encode, append the `0x00`
terminator) and feeding the resulting bytes one at a time into a freshly
reset FrameDecoder makes `feed` return `None` on every byte except the final
terminator byte, on which it returns exactly one sample bit-identical to the
original. -/
theorem C1_round_trip (s : Packet)
    (h1 : s.input < 4294967296) (h2 : s.setpoint < 4294967296)
    (h3 : s.error < 4294967296) (h4 : s.gain < 4294967296)
    (h5 : s.p_term < 4294967296) (h6 : s.i_term < 4294967296)
    (h7 : s.d_term < 4294967296) :
    feedAll freshDecoder (wireFrame s) =
      (DecoderState.mk DState.START [] (-1),
        List.replicate ((wireFrame s).length - 1) none ++ [some s]) := by
  unfold wireFrame wireFrame28
  rw [feed_encoded_block]
  rw [parse_packet_valid _ (payloadBytes_length s)]
  rw [unpack7f_payloadBytes s h1 h2 h3 h4 h5 h6 h7]
  simp

/-- Witness for C1 at the spec's fixed vector `TelemetrySample(1.0, 2.0, 1.0,
0.5, 0.5, 0.1, 0.05)` (bit patterns `0x3F800000` etc.). -/
theorem C1_round_trip_witness :
    ((1065353216 : Nat) < 4294967296 ∧ (1073741824 : Nat) < 4294967296 ∧
      (1056964608 : Nat) < 4294967296 ∧ (1036831949 : Nat) < 4294967296 ∧
      (1028443341 : Nat) < 4294967296) ∧
    feedAll freshDecoder
        (wireFrame (Packet.mk 1065353216 1073741824 1065353216 1056964608
          1056964608 1036831949 1028443341)) =
      (DecoderState.mk DState.START [] (-1),
        List.replicate ((wireFrame (Packet.mk 1065353216 1073741824 1065353216
          1056964608 1056964608 1036831949 1028443341)).length - 1) none ++
          [some (Packet.mk 1065353216 1073741824 1065353216 1056964608
            1056964608 1036831949 1028443341)]) :=
  ⟨by norm_num,
    C1_round_trip
      (Packet.mk 1065353216 1073741824 1065353216 1056964608 1056964608
        1036831949 1028443341)
      (by norm_num) (by norm_num) (by norm_num) (by norm_num) (by norm_num)
      (by norm_num) (by norm_num)⟩

/-- C4 is false of the code: the decoder imposes no cap on the frame buffer.
Feeding the code byte `0x20` and then 31 non-zero bytes to a fresh decoder
grows `packet` to 31 bytes — more than the maximum valid payload+checksum
size of 30 — without any reset, and every byte returns `None`. -/
theorem C4_buffer_exceeds_30 :
    (feedAll freshDecoder (32 :: List.replicate 31 1)).1.packet.length = 31 ∧
    (feedAll freshDecoder (32 :: List.replicate 31 1)).2 = List.replicate 32 none := by
  decide

/-- C5 is false of the code on one point: a sync error (terminator received
in `SCAN` state) occurring when `cobs_code = 1` does not leave the decoder in
`START` (AwaitingOverhead).  The trailing `if self.cobs_code == 1` in
`update` runs after the error reset and moves the state to `ESC`
(PendingZero).  Bytes `0x02 0x00` from a fresh decoder exhibit it: both bytes
return `None` (no exception is modelled because `update` is total), the
buffer is empty, but the final state is `ESC`, not `START`. -/
theorem C5_sync_error_leaves_esc :
    feedAll freshDecoder [2, 0] = (DecoderState.mk DState.ESC [] 0, [none, none]) ∧
    DState.ESC ≠ DState.START := by
  decide

set_option maxRecDepth 4000 in
/-- C6 is false of the code: inserting a spurious `0x00` inside a run just
before the run's final data byte (here: into the valid frame for payload
`1^27 ++ [4]`, after the code byte `0x1F` and 27 data bytes) makes the
decoder consume the corrupted frame with no sample, but it re-enters `ESC`
state on the corrupted frame's own terminator, prepends a spurious zero byte
to the next frame's buffer, and therefore drops the well-formed frame that
follows (31-byte buffer — length error): no sample is produced anywhere in
the stream, although the clean frame alone decodes to exactly one sample. -/
theorem C6_resync_failure :
    ((feedAll freshDecoder (wireFrame28 (List.replicate 27 1 ++ [4]))).2.filter
        (fun o => o.isSome)).length = 1 ∧
    (feedAll freshDecoder
        ((wireFrame28 (List.replicate 27 1 ++ [4])).take 28 ++ [0] ++
          (wireFrame28 (List.replicate 27 1 ++ [4])).drop 28 ++
          wireFrame28 (List.replicate 27 1 ++ [4]))).2 = List.replicate 65 none := by
  decide

/-- C8: for every valid encoded frame and every single-bit flip applied to
any of the 28 payload bytes or the 2 checksum bytes (a flip of bit `j` of
byte `i` of the pre-encoding payload+checksum block, which is where those
bytes live), feeding the modified frame to a fresh decoder produces a
checksum error — the structurally complete 30-byte buffer fails CRC
verification (first conjunct) — and returns no sample on any byte (second
conjunct). -/
theorem C8_checksum_sensitivity (p : List Nat) (hp : p.length = 28)
    (hb : ∀ b ∈ p, b < 256) (i j : Nat) (hi : i < 30) (hj : j < 8) :
    unpackU16LE ((flipAt (p ++ packU16LE (crc16_xmodem p)) i j).drop 28) ≠
        crc16_xmodem ((flipAt (p ++ packU16LE (crc16_xmodem p)) i j).take 28) ∧
    feedAll freshDecoder
        (cobsEncode (flipAt (p ++ packU16LE (crc16_xmodem p)) i j) ++ [PACKET_TERMINATOR]) =
      (DecoderState.mk DState.START [] (-1),
        List.replicate
          ((cobsEncode (flipAt (p ++ packU16LE (crc16_xmodem p)) i j)).length + 1) none) := by
  have hclt : crc16_xmodem p < 65536 := crc16_xmodem_lt p
  have hflen : (flipAt (p ++ packU16LE (crc16_xmodem p)) i j).length = 30 := by
    simp [flipAt, packU16LE, hp]
  have hbad : unpackU16LE ((flipAt (p ++ packU16LE (crc16_xmodem p)) i j).drop 28) ≠
      crc16_xmodem ((flipAt (p ++ packU16LE (crc16_xmodem p)) i j).take 28) := by
    rcases Nat.lt_or_ge i 28 with hi28 | hi28
    · -- flip lands in the 28-byte payload
      have hip : i < p.length := by omega
      have hset : flipAt (p ++ packU16LE (crc16_xmodem p)) i j
          = p.set i (p.getD i 0 ^^^ 2 ^ j) ++ packU16LE (crc16_xmodem p) := by
        unfold flipAt
        rw [List.getD_append _ _ _ _ hip, List.set_append_left _ _ hip]
      have hplen : (p.set i (p.getD i 0 ^^^ 2 ^ j)).length = 28 := by simp [hp]
      have htake : (p.set i (p.getD i 0 ^^^ 2 ^ j) ++ packU16LE (crc16_xmodem p)).take 28
          = p.set i (p.getD i 0 ^^^ 2 ^ j) := by
        rw [show (28 : Nat) = (p.set i (p.getD i 0 ^^^ 2 ^ j)).length from hplen.symm]
        exact List.take_left _ _
      have hdrop : (p.set i (p.getD i 0 ^^^ 2 ^ j) ++ packU16LE (crc16_xmodem p)).drop 28
          = packU16LE (crc16_xmodem p) := by
        rw [show (28 : Nat) = (p.set i (p.getD i 0 ^^^ 2 ^ j)).length from hplen.symm]
        exact List.drop_left _ _
      rw [hset, htake, hdrop, unpackU16LE_packU16LE _ hclt]
      have hdec := take_getD_cons_drop 0 p i hip
      have hmem : p.getD i 0 ∈ p := by
        rw [List.getD_eq_getElem p 0 hip]
        exact List.getElem_mem hip
      have hxorlt : p.getD i 0 ^^^ 2 ^ j < 256 := by
        have ha : p.getD i 0 < 2 ^ 8 := lt_of_lt_of_le (hb _ hmem) (by norm_num)
        have hc : (2 : Nat) ^ j < 2 ^ 8 :=
          lt_of_le_of_lt (Nat.pow_le_pow_right (by norm_num) (by omega : j ≤ 7)) (by norm_num)
        exact lt_of_lt_of_le (Nat.xor_lt_two_pow ha hc) (by norm_num)
      rw [List.set_eq_take_cons_drop _ hip]
      conv_lhs => rw [← hdec]
      exact crc16_xmodem_ne_of_byte_ne (p.take i) (p.drop (i + 1)) _ _
        (hb _ hmem) hxorlt (fun x hx => hb x (List.mem_of_mem_drop hx))
        (xor_two_pow_ne (p.getD i 0) j).symm
    · -- flip lands in the 2 checksum bytes
      have hset : flipAt (p ++ packU16LE (crc16_xmodem p)) i j
          = p ++ (packU16LE (crc16_xmodem p)).set (i - 28)
              ((packU16LE (crc16_xmodem p)).getD (i - 28) 0 ^^^ 2 ^ j) := by
        unfold flipAt
        rw [List.getD_append_right _ _ _ _ (by omega : p.length ≤ i),
          List.set_append_right _ _ (by omega : p.length ≤ i), hp]
      have htake : ∀ cb' : List Nat, (p ++ cb').take 28 = p := by
        intro cb'
        rw [show (28 : Nat) = p.length from hp.symm]
        exact List.take_left _ _
      have hdrop : ∀ cb' : List Nat, (p ++ cb').drop 28 = cb' := by
        intro cb'
        rw [show (28 : Nat) = p.length from hp.symm]
        exact List.drop_left _ _
      rw [hset, htake, hdrop]
      rcases (by omega : i - 28 = 0 ∨ i - 28 = 1) with h0 | h1
      · rw [h0]
        simp only [packU16LE, List.getD_cons_zero, List.set_cons_zero, unpackU16LE,
          List.getD_cons_succ]
        intro heq
        exact xor_two_pow_ne (crc16_xmodem p % 256) j (by omega)
      · rw [h1]
        simp only [packU16LE, List.getD_cons_zero, List.getD_cons_succ, List.set_cons_succ,
          List.set_cons_zero, unpackU16LE]
        intro heq
        exact xor_two_pow_ne (crc16_xmodem p / 256 % 256) j (by omega)
  refine ⟨hbad, ?_⟩
  rw [feed_encoded_block, parse_packet_badsum _ hflen hbad, List.replicate_succ']

/-- Witness for C8: the all-ones payload, flipping bit 0 of byte 0. -/
theorem C8_checksum_sensitivity_witness :
    ((List.replicate 28 1 : List Nat).length = 28 ∧
      (∀ b ∈ (List.replicate 28 1 : List Nat), b < 256) ∧
      (0 : Nat) < 30 ∧ (0 : Nat) < 8) ∧
    (unpackU16LE ((flipAt (List.replicate 28 1 ++ packU16LE (crc16_xmodem (List.replicate 28 1))) 0 0).drop 28) ≠
        crc16_xmodem ((flipAt (List.replicate 28 1 ++ packU16LE (crc16_xmodem (List.replicate 28 1))) 0 0).take 28) ∧
      feedAll freshDecoder
          (cobsEncode (flipAt (List.replicate 28 1 ++ packU16LE (crc16_xmodem (List.replicate 28 1))) 0 0) ++ [PACKET_TERMINATOR]) =
        (DecoderState.mk DState.START [] (-1),
          List.replicate
            ((cobsEncode (flipAt (List.replicate 28 1 ++ packU16LE (crc16_xmodem (List.replicate 28 1))) 0 0)).length + 1) none)) :=
  ⟨⟨by decide, by decide, by decide, by decide⟩,
    C8_checksum_sensitivity (List.replicate 28 1) (by decide) (by decide) 0 0
      (by decide) (by decide)⟩

/-- C10: feeding the terminator `0x00` to a fresh decoder (state `START`)
returns `None` and loads it as a run-length code (`cobs_code` becomes
`0 - 1 = -1`) while transitioning to `SCAN` (Copying) — it is not treated as
an empty frame or an error.  Consequently `0x00 0x00` produces no sample and
ends with a sync-error reset to `START` (AwaitingOverhead) with an empty
buffer and `cobs_code = -2` (the second byte went through the `SCAN`
terminator arm, so `parse_packet` was never reached — no length error on an
empty frame, whose output would have been produced by the `ESC` arm). -/
theorem C10_zero_code_byte :
    update freshDecoder 0 = (DecoderState.mk DState.SCAN [] (-1), none) ∧
    feedAll freshDecoder [0, 0] =
      (DecoderState.mk DState.START [] (-2), [none, none]) := by
  decide

end SerialManager

namespace PlotterWidget

/-- One chart series (`QLineSeries`) as used by `PlotterWidget` in
`src/plotter_widget.py`: an object name, an ordered point list
(`(timestamp, value)` pairs), and a visibility flag. -/
structure PSeries where
  name : String
  points : List (ℚ × ℚ)
  visible : Bool
deriving DecidableEq, Repr

/-- The mutable state of `PlotterWidget`: the session range trackers
`max_value`/`min_value`, the window width `span_secs`, the `running` flag,
the `QElapsedTimer` validity (`timer_valid = false` models an invalidated
timer), the chart's series list, and the two axis ranges set via
`setRange`. -/
structure PlotterState where
  max_value : ℚ
  min_value : ℚ
  span_secs : ℚ
  running : Bool
  timer_valid : Bool
  series : List PSeries
  axis_x : ℚ × ℚ
  axis_y : ℚ × ℚ
deriving DecidableEq, Repr

/-- `PlotterWidget.start_plotting`: reset both trackers to 0 and set
`running`. -/
def start_plotting (s : PlotterState) : PlotterState :=
  { s with max_value := 0, min_value := 0, running := true }

/-- `PlotterWidget.stop_plotting`: clears `running`, sets the Y axis range to
`(0, 0)` and the X axis range to `(0, span_secs)`, and invalidates the timer.
The source line `map(lambda series: series.clear(), self.ui.chart.series())`
builds a lazy `map` iterator that is never consumed, so no series is actually
cleared; `min_value`/`max_value` are not assigned anywhere in
`stop_plotting` (they are reset by `start_plotting`). -/
def stop_plotting (s : PlotterState) : PlotterState :=
  { s with running := false,
           axis_y := (0, 0),
           axis_x := (0, s.span_secs),
           timer_valid := false }

/-- The head-eviction loop of `PlotterWidget.plot_values`: advance `i` while
`i < count - 1` and the next point's timestamp is below the threshold, then
`removePoints(0, i)` — i.e. drop leading points as long as a successor exists
below `elapsed - span_secs`. -/
def evict (th : ℚ) : List (ℚ × ℚ) → List (ℚ × ℚ)
  | p1 :: p2 :: rest => if p2.1 < th then evict th (p2 :: rest) else p1 :: p2 :: rest
  | l => l

/-- Python's `max` over the values of the `values` mapping
(`max(values.values())`; only evaluated on a non-empty mapping). -/
def listMax : List ℚ → ℚ
  | [] => 0
  | x :: xs => xs.foldl max x

/-- Python's `min` over the values of the `values` mapping. -/
def listMin : List ℚ → ℚ
  | [] => 0
  | x :: xs => xs.foldl min x

/-- The per-series loop of `PlotterWidget.plot_values`, threading the
trackers and the Y-axis range through the series list in order.  For each
series: evict old points; if the series' name is not a key of `values`, keep
it with only the eviction applied; otherwise append `(elapsed, value)`; if it
is moreover visible, update `max_value` with `max(values.values())`,
`min_value` with `min(values.values())` (note: over all mapping values, as in
the source) and set the Y axis range to `(min*1.1, max*1.1)`. -/
def seriesPass (values : List (String × ℚ)) (elapsed span : ℚ) :
    List PSeries → ℚ → ℚ → ℚ × ℚ → List PSeries × ℚ × ℚ × (ℚ × ℚ)
  | [], maxv, minv, ay => ([], maxv, minv, ay)
  | sr :: rest, maxv, minv, ay =>
    let pts := evict (elapsed - span) sr.points
    match values.lookup sr.name with
    | none =>
      let r := seriesPass values elapsed span rest maxv minv ay
      ({ sr with points := pts } :: r.1, r.2)
    | some v =>
      if sr.visible then
        let maxv2 := max maxv (listMax (values.map Prod.snd))
        let minv2 := min minv (listMin (values.map Prod.snd))
        let ay2 := (minv2 * 1.1, maxv2 * 1.1)
        let r := seriesPass values elapsed span rest maxv2 minv2 ay2
        ({ sr with points := pts ++ [(elapsed, v)] } :: r.1, r.2)
      else
        let r := seriesPass values elapsed span rest maxv minv ay
        ({ sr with points := pts ++ [(elapsed, v)] } :: r.1, r.2)

/-- `PlotterWidget.plot_values` from `src/plotter_widget.py`.  `t` is the
reading of the elapsed-time clock in seconds (`timer.elapsed() / 1000`),
supplied externally; when the timer is invalid it is started and `elapsed`
is 0.  Values and timestamps are modelled in `ℚ`. -/
def plot_values (s : PlotterState) (values : List (String × ℚ)) (t : ℚ) : PlotterState :=
  if s.running = false then s
  else
    let elapsed : ℚ := if s.timer_valid then t else 0
    let r := seriesPass values elapsed s.span_secs s.series s.max_value s.min_value s.axis_y
    { s with
      timer_valid := true
      series := r.1
      max_value := r.2.1
      min_value := r.2.2.1
      axis_y := r.2.2.2
      axis_x :=
        if elapsed > s.span_secs then (elapsed - s.span_secs, elapsed)
        else (0, s.span_secs) }

/-! ### Tracker behaviour of the per-series loop -/

/-- How `seriesPass` updates the two range trackers: if at least one visible
series has its name in the mapping, both trackers absorb the extremum of
*all* mapping values; otherwise they are unchanged. -/
theorem seriesPass_trackers (values : List (String × ℚ)) (elapsed span : ℚ) :
    ∀ (l : List PSeries) (maxv minv : ℚ) (ay : ℚ × ℚ),
      ((∃ sr ∈ l, sr.visible = true ∧ (values.lookup sr.name).isSome = true) →
        (seriesPass values elapsed span l maxv minv ay).2.1
            = max maxv (listMax (values.map Prod.snd)) ∧
        (seriesPass values elapsed span l maxv minv ay).2.2.1
            = min minv (listMin (values.map Prod.snd))) ∧
      ((¬ ∃ sr ∈ l, sr.visible = true ∧ (values.lookup sr.name).isSome = true) →
        (seriesPass values elapsed span l maxv minv ay).2.1 = maxv ∧
        (seriesPass values elapsed span l maxv minv ay).2.2.1 = minv) := by
  intro l
  induction l with
  | nil =>
    intro maxv minv ay
    constructor
    · rintro ⟨sr, hsr, -⟩
      simp at hsr
    · intro _
      exact ⟨rfl, rfl⟩
  | cons sr rest ih =>
    intro maxv minv ay
    cases hlk : values.lookup sr.name with
    | none =>
      simp only [seriesPass, hlk]
      constructor
      · rintro ⟨sr', hsr', hvis, hsome⟩
        rcases List.mem_cons.mp hsr' with rfl | hmem
        · rw [hlk] at hsome
          simp at hsome
        · exact (ih maxv minv ay).1 ⟨sr', hmem, hvis, hsome⟩
      · intro hno
        exact (ih maxv minv ay).2
          (fun ⟨sr', hmem, hq⟩ => hno ⟨sr', List.mem_cons_of_mem _ hmem, hq⟩)
    | some v =>
      cases hvis : sr.visible with
      | false =>
        simp only [seriesPass, hlk, hvis, Bool.false_eq_true, if_false]
        constructor
        · rintro ⟨sr', hsr', hvis', hsome⟩
          rcases List.mem_cons.mp hsr' with rfl | hmem
          · rw [hvis] at hvis'
            exact absurd hvis' (by simp)
          · exact (ih maxv minv ay).1 ⟨sr', hmem, hvis', hsome⟩
        · intro hno
          exact (ih maxv minv ay).2
            (fun ⟨sr', hmem, hq⟩ => hno ⟨sr', List.mem_cons_of_mem _ hmem, hq⟩)
      | true =>
        simp only [seriesPass, hlk, hvis, if_true]
        constructor
        · intro _
          by_cases hrest : ∃ sr' ∈ rest, sr'.visible = true ∧
              (values.lookup sr'.name).isSome = true
          · have hr := (ih (max maxv (listMax (values.map Prod.snd)))
              (min minv (listMin (values.map Prod.snd)))
              (min minv (listMin (values.map Prod.snd)) * 1.1,
                max maxv (listMax (values.map Prod.snd)) * 1.1)).1 hrest
            refine ⟨?_, ?_⟩
            · rw [hr.1, max_assoc, max_self]
            · rw [hr.2, min_assoc, min_self]
          · have hr := (ih (max maxv (listMax (values.map Prod.snd)))
              (min minv (listMin (values.map Prod.snd)))
              (min minv (listMin (values.map Prod.snd)) * 1.1,
                max maxv (listMax (values.map Prod.snd)) * 1.1)).2 hrest
            exact ⟨hr.1, hr.2⟩
        · intro hno
          exact absurd ⟨sr, List.mem_cons_self _ _, hvis, by rw [hlk]; rfl⟩ hno

/-! ### Claim theorems for the windowed series store -/

/-- C2 is false of the code on two points.  `stop_plotting` does set
`running := false`, reset both axis ranges and invalidate the timer, but it
empties no series (the `map(...)` building the clearing thunks is a lazy
iterator that is never consumed) and does not touch
`min_value`/`max_value` (only `start_plotting` resets them).  Evaluated on a
state with a non-empty buffer and non-zero trackers: everything but
`running`, the axes and the timer is unchanged. -/
theorem C2_stop_plotting_keeps_data :
    stop_plotting (PlotterState.mk 7 (-3) 10 true true
        [PSeries.mk "ch" [(0, 5)] true] (0, 10) (1, 2))
      = PlotterState.mk 7 (-3) 10 false false
        [PSeries.mk "ch" [(0, 5)] true] (0, 10) (0, 0) := by
  rfl

/-- C3 is false of the code as stated: with a visible series `A` and a hidden
series `B`, ingesting `{A: 1, B: 100}` drives `max_value` to `100` — the
update uses `max(values.values())`, the maximum over *all* mapping values —
whereas the claim says only values appended to visible channels (here the
value `1`) may affect it, i.e. predicts `max 0 1 = 1`. -/
theorem C3_hidden_affects_range :
    (plot_values (PlotterState.mk 0 0 10 true true
        [PSeries.mk "A" [] true, PSeries.mk "B" [] false] (0, 10) (0, 0))
      [("A", 1), ("B", 100)] 1).max_value = 100 ∧
    (100 : ℚ) ≠ max 0 1 := by
  constructor
  · rfl
  · intro h
    have := congrArg Rat.num (h.trans (max_eq_right (by norm_num)))
    norm_num at this

/-- C3 amended: on an ingest while running, if at least one *visible*
channel's name is a key of the mapping then `max_value` becomes
`max(max_value, max of all mapping values)` and `min_value` becomes
`min(min_value, min of all mapping values)` — hidden channels' values and
keys matching no channel *are* included; if no visible channel's name is in
the mapping, the trackers are unchanged. -/
theorem C3_trackers_use_all_values (s : PlotterState) (values : List (String × ℚ))
    (t : ℚ) (hrun : s.running = true) :
    ((∃ sr ∈ s.series, sr.visible = true ∧ (values.lookup sr.name).isSome = true) →
      (plot_values s values t).max_value
          = max s.max_value (listMax (values.map Prod.snd)) ∧
      (plot_values s values t).min_value
          = min s.min_value (listMin (values.map Prod.snd))) ∧
    ((¬ ∃ sr ∈ s.series, sr.visible = true ∧ (values.lookup sr.name).isSome = true) →
      (plot_values s values t).max_value = s.max_value ∧
      (plot_values s values t).min_value = s.min_value) := by
  have h := seriesPass_trackers values (if s.timer_valid then t else 0) s.span_secs
    s.series s.max_value s.min_value s.axis_y
  unfold plot_values
  rw [if_neg (by simp [hrun])]
  exact ⟨fun hex => (h.1 hex), fun hno => (h.2 hno)⟩

/-- Witness for C3 amended, at the state of the counterexample: the visible
series `A` matches, so both trackers absorb the extrema of all mapping
values. -/
theorem C3_trackers_use_all_values_witness :
    (PlotterState.mk 0 0 10 true true
        [PSeries.mk "A" [] true, PSeries.mk "B" [] false] (0, 10) (0, 0)).running = true ∧
    (((∃ sr ∈ (PlotterState.mk 0 0 10 true true
          [PSeries.mk "A" [] true, PSeries.mk "B" [] false] (0, 10) (0, 0)).series,
        sr.visible = true ∧ (([("A", (1 : ℚ)), ("B", 100)].lookup sr.name).isSome = true)) →
      (plot_values (PlotterState.mk 0 0 10 true true
          [PSeries.mk "A" [] true, PSeries.mk "B" [] false] (0, 10) (0, 0))
          [("A", 1), ("B", 100)] 1).max_value
        = max (PlotterState.mk 0 0 10 true true
            [PSeries.mk "A" [] true, PSeries.mk "B" [] false] (0, 10) (0, 0)).max_value
            (listMax ([("A", (1 : ℚ)), ("B", 100)].map Prod.snd)) ∧
      (plot_values (PlotterState.mk 0 0 10 true true
          [PSeries.mk "A" [] true, PSeries.mk "B" [] false] (0, 10) (0, 0))
          [("A", 1), ("B", 100)] 1).min_value
        = min (PlotterState.mk 0 0 10 true true
            [PSeries.mk "A" [] true, PSeries.mk "B" [] false] (0, 10) (0, 0)).min_value
            (listMin ([("A", (1 : ℚ)), ("B", 100)].map Prod.snd))) ∧
    ((¬ ∃ sr ∈ (PlotterState.mk 0 0 10 true true
          [PSeries.mk "A" [] true, PSeries.mk "B" [] false] (0, 10) (0, 0)).series,
        sr.visible = true ∧ (([("A", (1 : ℚ)), ("B", 100)].lookup sr.name).isSome = true)) →
      (plot_values (PlotterState.mk 0 0 10 true true
          [PSeries.mk "A" [] true, PSeries.mk "B" [] false] (0, 10) (0, 0))
          [("A", 1), ("B", 100)] 1).max_value
        = (PlotterState.mk 0 0 10 true true
            [PSeries.mk "A" [] true, PSeries.mk "B" [] false] (0, 10) (0, 0)).max_value ∧
      (plot_values (PlotterState.mk 0 0 10 true true
          [PSeries.mk "A" [] true, PSeries.mk "B" [] false] (0, 10) (0, 0))
          [("A", 1), ("B", 100)] 1).min_value
        = (PlotterState.mk 0 0 10 true true
            [PSeries.mk "A" [] true, PSeries.mk "B" [] false] (0, 10) (0, 0)).min_value)) :=
  ⟨rfl, C3_trackers_use_all_values _ [("A", 1), ("B", 100)] 1 rfl⟩

/-- Evaluation shape of one `plot_values` call on a single visible channel
named `ch` with `span_secs = 10`: the series is evicted against the threshold
`elapsed - 10` and gets `(elapsed, v)` appended, the X axis follows
`elapsed`, the timer becomes valid; the updated trackers and Y range are
existentially abstracted. -/
theorem plot_values_single (maxv minv : ℚ) (ax ay : ℚ × ℚ) (tv : Bool)
    (pts : List (ℚ × ℚ)) (v t : ℚ) :
    ∃ (M m : ℚ) (AY : ℚ × ℚ),
    plot_values (PlotterState.mk maxv minv 10 true tv [PSeries.mk "ch" pts true] ax ay)
        [("ch", v)] t
      = PlotterState.mk M m 10 true true
          [PSeries.mk "ch"
            (evict ((if tv then t else 0) - 10) pts ++ [((if tv then t else 0), v)]) true]
          (if (if tv then t else 0) > 10
            then ((if tv then t else 0) - 10, (if tv then t else 0)) else (0, 10)) AY :=
  ⟨_, _, _, rfl⟩

/-- C7: with `span_secs = 10`, a single visible channel ingested at elapsed
times `0, 1, …, 20` (timer started on the first call) ends with
`x_range = (10, 20)` and exactly the points with timestamps `9, 10, …, 20`
in the buffer — the point at timestamp 9 being the one retained boundary
point just before the threshold 10 — so no buffered point has a timestamp
strictly below 9. -/
theorem C7_windowing (f : ℕ → ℚ) :
    ((List.range 21).foldl
        (fun st k => plot_values st [("ch", f k)] (k : ℚ))
        (PlotterState.mk 0 0 10 true false [PSeries.mk "ch" [] true] (0, 10) (0, 0))).axis_x = (10, 20) ∧
    ((List.range 21).foldl
        (fun st k => plot_values st [("ch", f k)] (k : ℚ))
        (PlotterState.mk 0 0 10 true false [PSeries.mk "ch" [] true] (0, 10) (0, 0))).series
      = [PSeries.mk "ch" [((9 : ℚ), f 9), ((10 : ℚ), f 10), ((11 : ℚ), f 11), ((12 : ℚ), f 12), ((13 : ℚ), f 13), ((14 : ℚ), f 14), ((15 : ℚ), f 15), ((16 : ℚ), f 16), ((17 : ℚ), f 17), ((18 : ℚ), f 18), ((19 : ℚ), f 19), ((20 : ℚ), f 20)] true] ∧
    ∀ sr ∈ ((List.range 21).foldl
        (fun st k => plot_values st [("ch", f k)] (k : ℚ))
        (PlotterState.mk 0 0 10 true false [PSeries.mk "ch" [] true] (0, 10) (0, 0))).series, ∀ q ∈ sr.points, ¬ q.1 < (9 : ℚ) := by
  obtain ⟨M0, m0, A0, h0⟩ :=
    plot_values_single 0 0 (0, 10) (0, 0) false
      [] (f 0) 0
  norm_num [evict] at h0
  obtain ⟨M1, m1, A1, h1⟩ :=
    plot_values_single M0 m0 (0, 10) A0 true
      [((0 : ℚ), f 0)] (f 1) 1
  norm_num [evict] at h1
  obtain ⟨M2, m2, A2, h2⟩ :=
    plot_values_single M1 m1 (0, 10) A1 true
      [((0 : ℚ), f 0), ((1 : ℚ), f 1)] (f 2) 2
  norm_num [evict] at h2
  obtain ⟨M3, m3, A3, h3⟩ :=
    plot_values_single M2 m2 (0, 10) A2 true
      [((0 : ℚ), f 0), ((1 : ℚ), f 1), ((2 : ℚ), f 2)] (f 3) 3
  norm_num [evict] at h3
  obtain ⟨M4, m4, A4, h4⟩ :=
    plot_values_single M3 m3 (0, 10) A3 true
      [((0 : ℚ), f 0), ((1 : ℚ), f 1), ((2 : ℚ), f 2), ((3 : ℚ), f 3)] (f 4) 4
  norm_num [evict] at h4
  obtain ⟨M5, m5, A5, h5⟩ :=
    plot_values_single M4 m4 (0, 10) A4 true
      [((0 : ℚ), f 0), ((1 : ℚ), f 1), ((2 : ℚ), f 2), ((3 : ℚ), f 3), ((4 : ℚ), f 4)] (f 5) 5
  norm_num [evict] at h5
  obtain ⟨M6, m6, A6, h6⟩ :=
    plot_values_single M5 m5 (0, 10) A5 true
      [((0 : ℚ), f 0), ((1 : ℚ), f 1), ((2 : ℚ), f 2), ((3 : ℚ), f 3), ((4 : ℚ), f 4), ((5 : ℚ), f 5)] (f 6) 6
  norm_num [evict] at h6
  obtain ⟨M7, m7, A7, h7⟩ :=
    plot_values_single M6 m6 (0, 10) A6 true
      [((0 : ℚ), f 0), ((1 : ℚ), f 1), ((2 : ℚ), f 2), ((3 : ℚ), f 3), ((4 : ℚ), f 4), ((5 : ℚ), f 5), ((6 : ℚ), f 6)] (f 7) 7
  norm_num [evict] at h7
  obtain ⟨M8, m8, A8, h8⟩ :=
    plot_values_single M7 m7 (0, 10) A7 true
      [((0 : ℚ), f 0), ((1 : ℚ), f 1), ((2 : ℚ), f 2), ((3 : ℚ), f 3), ((4 : ℚ), f 4), ((5 : ℚ), f 5), ((6 : ℚ), f 6), ((7 : ℚ), f 7)] (f 8) 8
  norm_num [evict] at h8
  obtain ⟨M9, m9, A9, h9⟩ :=
    plot_values_single M8 m8 (0, 10) A8 true
      [((0 : ℚ), f 0), ((1 : ℚ), f 1), ((2 : ℚ), f 2), ((3 : ℚ), f 3), ((4 : ℚ), f 4), ((5 : ℚ), f 5), ((6 : ℚ), f 6), ((7 : ℚ), f 7), ((8 : ℚ), f 8)] (f 9) 9
  norm_num [evict] at h9
  obtain ⟨M10, m10, A10, h10⟩ :=
    plot_values_single M9 m9 (0, 10) A9 true
      [((0 : ℚ), f 0), ((1 : ℚ), f 1), ((2 : ℚ), f 2), ((3 : ℚ), f 3), ((4 : ℚ), f 4), ((5 : ℚ), f 5), ((6 : ℚ), f 6), ((7 : ℚ), f 7), ((8 : ℚ), f 8), ((9 : ℚ), f 9)] (f 10) 10
  norm_num [evict] at h10
  obtain ⟨M11, m11, A11, h11⟩ :=
    plot_values_single M10 m10 (0, 10) A10 true
      [((0 : ℚ), f 0), ((1 : ℚ), f 1), ((2 : ℚ), f 2), ((3 : ℚ), f 3), ((4 : ℚ), f 4), ((5 : ℚ), f 5), ((6 : ℚ), f 6), ((7 : ℚ), f 7), ((8 : ℚ), f 8), ((9 : ℚ), f 9), ((10 : ℚ), f 10)] (f 11) 11
  norm_num [evict] at h11
  obtain ⟨M12, m12, A12, h12⟩ :=
    plot_values_single M11 m11 (1, 11) A11 true
      [((0 : ℚ), f 0), ((1 : ℚ), f 1), ((2 : ℚ), f 2), ((3 : ℚ), f 3), ((4 : ℚ), f 4), ((5 : ℚ), f 5), ((6 : ℚ), f 6), ((7 : ℚ), f 7), ((8 : ℚ), f 8), ((9 : ℚ), f 9), ((10 : ℚ), f 10), ((11 : ℚ), f 11)] (f 12) 12
  norm_num [evict] at h12
  obtain ⟨M13, m13, A13, h13⟩ :=
    plot_values_single M12 m12 (2, 12) A12 true
      [((1 : ℚ), f 1), ((2 : ℚ), f 2), ((3 : ℚ), f 3), ((4 : ℚ), f 4), ((5 : ℚ), f 5), ((6 : ℚ), f 6), ((7 : ℚ), f 7), ((8 : ℚ), f 8), ((9 : ℚ), f 9), ((10 : ℚ), f 10), ((11 : ℚ), f 11), ((12 : ℚ), f 12)] (f 13) 13
  norm_num [evict] at h13
  obtain ⟨M14, m14, A14, h14⟩ :=
    plot_values_single M13 m13 (3, 13) A13 true
      [((2 : ℚ), f 2), ((3 : ℚ), f 3), ((4 : ℚ), f 4), ((5 : ℚ), f 5), ((6 : ℚ), f 6), ((7 : ℚ), f 7), ((8 : ℚ), f 8), ((9 : ℚ), f 9), ((10 : ℚ), f 10), ((11 : ℚ), f 11), ((12 : ℚ), f 12), ((13 : ℚ), f 13)] (f 14) 14
  norm_num [evict] at h14
  obtain ⟨M15, m15, A15, h15⟩ :=
    plot_values_single M14 m14 (4, 14) A14 true
      [((3 : ℚ), f 3), ((4 : ℚ), f 4), ((5 : ℚ), f 5), ((6 : ℚ), f 6), ((7 : ℚ), f 7), ((8 : ℚ), f 8), ((9 : ℚ), f 9), ((10 : ℚ), f 10), ((11 : ℚ), f 11), ((12 : ℚ), f 12), ((13 : ℚ), f 13), ((14 : ℚ), f 14)] (f 15) 15
  norm_num [evict] at h15
  obtain ⟨M16, m16, A16, h16⟩ :=
    plot_values_single M15 m15 (5, 15) A15 true
      [((4 : ℚ), f 4), ((5 : ℚ), f 5), ((6 : ℚ), f 6), ((7 : ℚ), f 7), ((8 : ℚ), f 8), ((9 : ℚ), f 9), ((10 : ℚ), f 10), ((11 : ℚ), f 11), ((12 : ℚ), f 12), ((13 : ℚ), f 13), ((14 : ℚ), f 14), ((15 : ℚ), f 15)] (f 16) 16
  norm_num [evict] at h16
  obtain ⟨M17, m17, A17, h17⟩ :=
    plot_values_single M16 m16 (6, 16) A16 true
      [((5 : ℚ), f 5), ((6 : ℚ), f 6), ((7 : ℚ), f 7), ((8 : ℚ), f 8), ((9 : ℚ), f 9), ((10 : ℚ), f 10), ((11 : ℚ), f 11), ((12 : ℚ), f 12), ((13 : ℚ), f 13), ((14 : ℚ), f 14), ((15 : ℚ), f 15), ((16 : ℚ), f 16)] (f 17) 17
  norm_num [evict] at h17
  obtain ⟨M18, m18, A18, h18⟩ :=
    plot_values_single M17 m17 (7, 17) A17 true
      [((6 : ℚ), f 6), ((7 : ℚ), f 7), ((8 : ℚ), f 8), ((9 : ℚ), f 9), ((10 : ℚ), f 10), ((11 : ℚ), f 11), ((12 : ℚ), f 12), ((13 : ℚ), f 13), ((14 : ℚ), f 14), ((15 : ℚ), f 15), ((16 : ℚ), f 16), ((17 : ℚ), f 17)] (f 18) 18
  norm_num [evict] at h18
  obtain ⟨M19, m19, A19, h19⟩ :=
    plot_values_single M18 m18 (8, 18) A18 true
      [((7 : ℚ), f 7), ((8 : ℚ), f 8), ((9 : ℚ), f 9), ((10 : ℚ), f 10), ((11 : ℚ), f 11), ((12 : ℚ), f 12), ((13 : ℚ), f 13), ((14 : ℚ), f 14), ((15 : ℚ), f 15), ((16 : ℚ), f 16), ((17 : ℚ), f 17), ((18 : ℚ), f 18)] (f 19) 19
  norm_num [evict] at h19
  obtain ⟨M20, m20, A20, h20⟩ :=
    plot_values_single M19 m19 (9, 19) A19 true
      [((8 : ℚ), f 8), ((9 : ℚ), f 9), ((10 : ℚ), f 10), ((11 : ℚ), f 11), ((12 : ℚ), f 12), ((13 : ℚ), f 13), ((14 : ℚ), f 14), ((15 : ℚ), f 15), ((16 : ℚ), f 16), ((17 : ℚ), f 17), ((18 : ℚ), f 18), ((19 : ℚ), f 19)] (f 20) 20
  norm_num [evict] at h20

  have hfin : ((List.range 21).foldl
        (fun st k => plot_values st [("ch", f k)] (k : ℚ))
        (PlotterState.mk 0 0 10 true false [PSeries.mk "ch" [] true] (0, 10) (0, 0)))
      = PlotterState.mk M20 m20 10 true true
          [PSeries.mk "ch" [((9 : ℚ), f 9), ((10 : ℚ), f 10), ((11 : ℚ), f 11), ((12 : ℚ), f 12), ((13 : ℚ), f 13), ((14 : ℚ), f 14), ((15 : ℚ), f 15), ((16 : ℚ), f 16), ((17 : ℚ), f 17), ((18 : ℚ), f 18), ((19 : ℚ), f 19), ((20 : ℚ), f 20)] true] (10, 20) A20 := by
    have hr : List.range 21 = [0, 1, 2, 3, 4, 5, 6, 7, 8, 9, 10, 11, 12, 13,
        14, 15, 16, 17, 18, 19, 20] := rfl
    rw [hr]
    simp only [List.foldl_cons, List.foldl_nil]
    norm_num
    rw [h0, h1, h2, h3, h4, h5, h6, h7, h8, h9, h10, h11, h12, h13, h14, h15,
      h16, h17, h18, h19, h20]
  refine ⟨by rw [hfin], by rw [hfin], ?_⟩
  intro sr hsr q hq
  rw [hfin] at hsr
  simp only [List.mem_singleton] at hsr
  subst hsr
  simp only [List.mem_cons, List.not_mem_nil, or_false] at hq
  rcases hq with rfl | rfl | rfl | rfl | rfl | rfl | rfl | rfl | rfl | rfl | rfl | rfl <;>
    norm_num

/-- C9: the head-eviction step of `plot_values` never empties a non-empty
buffer — the loop guard `i < series.count() - 1` always leaves at least one
point, however small the timestamps are relative to the threshold. -/
theorem C9_eviction_keeps_last (th : ℚ) :
    ∀ pts : List (ℚ × ℚ), pts ≠ [] → evict th pts ≠ [] := by
  intro pts
  induction pts with
  | nil => exact fun h => absurd rfl h
  | cons p1 rest ih =>
    intro _
    cases rest with
    | nil => simp [evict]
    | cons p2 rest' =>
      rw [evict]
      split
      · exact ih (by simp)
      · simp

/-- Witness for C9: a single point far before the threshold survives. -/
theorem C9_eviction_keeps_last_witness :
    ([((-100 : ℚ), (0 : ℚ))] ≠ []) ∧ evict 1000 [((-100 : ℚ), (0 : ℚ))] ≠ [] :=
  ⟨by simp, C9_eviction_keeps_last 1000 [((-100 : ℚ), (0 : ℚ))] (by simp)⟩

end PlotterWidget
